import Mathlib

/-!
Verification development for the split-payment orchestrator of the
EvertecIntegration repository.

The TypeScript sources are shallowly embedded:
  * decimal amount strings (e.g. "6.40") are represented by the rational
    number they denote; JavaScript `parseFloat` / `toFixed(2)` round-trips
    are modelled as exact rational arithmetic with half-up rounding to two
    decimal places (`Number.prototype.toFixed` picks the larger candidate on
    ties, which is half-up for the non-negative currency amounts used here);
  * optional object fields are `Option` values, a field set to `undefined`
    being identified with an absent field;
  * JavaScript truthiness on optional strings is `jsTruthy` below (absent
    and empty string are falsy); amount strings are non-empty numerals, so
    truthiness of an amount field coincides with its presence;
  * wall-clock timestamps (`started_at`, `completed_at`), the echoed vendor
    transaction detail objects and `console.log` output are elided: no
    verified property mentions them;
  * `Math.random()` outcomes (the 10% cleanup trigger of the store and the
    generated split-transaction id) and the vendor's responses are explicit
    parameters of the embedded functions.
-/

namespace EvertecSplit

/-- JavaScript truthiness of an optional string field: `undefined` and the
empty string are falsy, every other string is truthy. -/
def jsTruthy : Option String → Bool
  | some s => s ≠ ""
  | none => false

/-- JavaScript `a || b` on two optional strings. -/
def jsOr (a b : Option String) : Option String :=
  if jsTruthy a then a else b

/-- JavaScript `a || dflt` where the fallback is a (truthy) string literal. -/
def jsOrStr (a : Option String) (dflt : String) : String :=
  match a with
  | some s => if s = "" then dflt else s
  | none => dflt

/-- JavaScript template interpolation of a possibly-undefined string. -/
def jsUndef (a : Option String) : String :=
  match a with
  | some s => s
  | none => "undefined"

/-- Model of `x.toFixed(2)` on a non-negative amount: round to two decimal
places, ties to the larger candidate (half-up). -/
def roundTo2 (x : ℚ) : ℚ :=
  ((x * 100 + 1 / 2).floor : ℚ) / 100

/-- `TransactionAmounts` (src/app/types/evertec-ecr.ts): a total amount plus
optional tax-compliance fields, each a decimal amount string modelled as the
rational it denotes. -/
structure TransactionAmounts where
  total : ℚ
  base_state_tax : Option ℚ
  base_reduced_tax : Option ℚ
  tip : Option ℚ
  state_tax : Option ℚ
  reduced_tax : Option ℚ
  city_tax : Option ℚ
  cashback : Option ℚ
deriving DecidableEq, Repr

/-- `calculateSplitAmounts` (src/app/lib/split-payment-helpers.ts): scales the
total and every present optional field by `percentage/100`, rounding each
result to two decimals with `toFixed(2)`. The JavaScript presence test
`if (totalAmounts.field)` is truthiness of a non-empty amount string, i.e.
presence of the `Option` field. -/
def calculateSplitAmounts (totalAmounts : TransactionAmounts) (percentage : ℚ) :
    TransactionAmounts :=
  let factor := percentage / 100
  { total := roundTo2 (totalAmounts.total * factor)
  , base_state_tax := totalAmounts.base_state_tax.map (fun v => roundTo2 (v * factor))
  , base_reduced_tax := totalAmounts.base_reduced_tax.map (fun v => roundTo2 (v * factor))
  , tip := totalAmounts.tip.map (fun v => roundTo2 (v * factor))
  , state_tax := totalAmounts.state_tax.map (fun v => roundTo2 (v * factor))
  , reduced_tax := totalAmounts.reduced_tax.map (fun v => roundTo2 (v * factor))
  , city_tax := totalAmounts.city_tax.map (fun v => roundTo2 (v * factor))
  , cashback := totalAmounts.cashback.map (fun v => roundTo2 (v * factor)) }

/-- `SplitPaymentPart`: configuration of one split part. -/
structure SplitPaymentPart where
  payment_method : String
  percentage : ℚ
  label : Option String
deriving DecidableEq, Repr

/-- Result shape `{ valid: boolean; error?: string }`. -/
structure ValidationResult where
  valid : Bool
  error : Option String
deriving DecidableEq, Repr

/-- `splits.reduce((sum, split) => sum + split.percentage, 0)`. -/
def totalPercentage (splits : List SplitPaymentPart) : ℚ :=
  splits.foldl (fun sum split => sum + split.percentage) 0

/-- The per-part loop of `validateSplitConfiguration`: for each part, in
order, reject a percentage outside (0, 100] and then a payment method outside
the closed set. The numeral rendering of indices matches the source. -/
def validateParts : Nat → List SplitPaymentPart → ValidationResult
  | _, [] => { valid := true, error := none }
  | i, split :: rest =>
    if split.percentage ≤ 0 ∨ 100 < split.percentage then
      { valid := false
      , error := some ("Split part " ++ toString (i + 1) ++
          ": percentage must be between 0 and 100") }
    else if split.payment_method ∉ (["card", "ath-movil"] : List String) then
      { valid := false
      , error := some ("Split part " ++ toString (i + 1) ++
          ": payment_method must be 'card' or 'ath-movil'") }
    else
      validateParts (i + 1) rest

/-- `validateSplitConfiguration` (src/app/lib/split-payment-helpers.ts):
rejects an empty list, more than 10 parts, a percentage sum off 100 by more
than 0.01 (message carrying the rendered sum), then runs the per-part loop.
For integral sums the `toString` rendering agrees with JavaScript's. -/
def validateSplitConfiguration (splits : List SplitPaymentPart) : ValidationResult :=
  if splits.length = 0 then
    { valid := false, error := some "At least one split part is required" }
  else if 10 < splits.length then
    { valid := false, error := some "Maximum 10 split parts allowed" }
  else if 1 / 100 < |totalPercentage splits - 100| then
    { valid := false
    , error := some ("Split percentages must sum to 100%, got " ++
        toString (totalPercentage splits) ++ "%") }
  else
    validateParts 0 splits

/-- `validateTransactionAmounts` (src/app/lib/evertec-ecr-helpers.ts): the
Puerto-Rico tax pairing gate.  If any of the four paired tax fields is
present, all four must be present.  The trailing numeric-string check of the
source is vacuous here because amounts are already modelled as parsed
rationals. -/
def validateTransactionAmounts (amounts : TransactionAmounts) : ValidationResult :=
  let hasBaseStateTax := amounts.base_state_tax.isSome
  let hasBaseReducedTax := amounts.base_reduced_tax.isSome
  let hasStateTax := amounts.state_tax.isSome
  let hasReducedTax := amounts.reduced_tax.isSome
  if hasBaseStateTax ∨ hasBaseReducedTax ∨ hasStateTax ∨ hasReducedTax then
    if ¬hasBaseStateTax then
      { valid := false
      , error := some "Puerto Rico tax compliance: base_state_tax is required when using tax fields. Set to \"0.00\" if no standard tax items." }
    else if ¬hasBaseReducedTax then
      { valid := false
      , error := some "Puerto Rico tax compliance: base_reduced_tax is required when using tax fields. Set to \"0.00\" if no reduced tax items." }
    else if ¬hasStateTax then
      { valid := false
      , error := some "Puerto Rico tax compliance: state_tax is required when using tax fields. Set to \"0.00\" if no standard tax items." }
    else if ¬hasReducedTax then
      { valid := false
      , error := some "Puerto Rico tax compliance: reduced_tax is required when using tax fields. Set to \"0.00\" if no reduced tax items." }
    else
      { valid := true, error := none }
  else
    { valid := true, error := none }

/-! ## Status Poller (`pollTransactionStatus`, src/app/lib/split-payment-helpers.ts)

One polling attempt consists of a call to the status-check collaborator
(`makeTerminalRequest` on GET_TRANSACTION_STATUS).  That call either throws
(a transport error, caught by the `try/catch` around the loop body) or yields
an HTTP status plus a response body of one of the vendor's heterogeneous
shapes.  The inter-attempt `setTimeout` sleep is not modelled (no verified
property mentions real time); `pollingInterval` is therefore dropped. -/

/-- A nested `transaction` detail object inside a status response. -/
structure TxnBody where
  approval_code : Option String
  response_message : Option String
deriving DecidableEq, Repr

/-- A status-check response body; every field the poller probes for. -/
structure StatusBody where
  status : Option String
  message : Option String
  error : Option String
  approval_code : Option String
  response_message : Option String
  transaction : Option TxnBody
  error_code : Option String
  error_message : Option String
deriving DecidableEq, Repr

/-- One attempt's interaction with the status-check collaborator: either the
request throws (transport error) or returns `(body, httpStatus)`. -/
inductive AttemptResponse
  | transportError (msg : String)
  | response (httpStatus : Nat) (body : StatusBody)
deriving DecidableEq, Repr

/-- The poller's outcome tag. -/
inductive PollStatus
  | approved
  | rejected
  | timeout
  | error
deriving DecidableEq, Repr

/-- JavaScript string of a `PollStatus`, as interpolated into messages. -/
def pollStatusStr : PollStatus → String
  | .approved => "approved"
  | .rejected => "rejected"
  | .timeout => "timeout"
  | .error => "error"

/-- Return shape of `pollTransactionStatus`. -/
structure PollResult where
  status : PollStatus
  response : Option StatusBody
  error : Option String
deriving DecidableEq, Repr

/-- The message built when polling exhausts its attempts. -/
def timeoutMessage (maxAttempts : Nat) : String :=
  "Transaction status polling timed out after " ++ toString maxAttempts ++ " attempts"

/-- The result returned when polling exhausts its attempts. -/
def timeoutResult (maxAttempts : Nat) : PollResult :=
  { status := .timeout, response := none, error := some (timeoutMessage maxAttempts) }

/-- What one attempt decides: return a result, or sleep and poll again. -/
inductive StepOut
  | ret (r : PollResult)
  | next
deriving DecidableEq, Repr

/-- Format 1: explicit `status` field (`if (statusData.status)`; an
empty-string status is falsy and skips the block).  A truthy status other
than APPROVED / REJECTED / ERROR / PENDING falls through (`none`). -/
def checkStatusField (body : StatusBody) : Option StepOut :=
  match body.status with
  | none => none
  | some s =>
    if s = "" then none
    else if s = "APPROVED" then
      some (.ret { status := .approved, response := some body, error := none })
    else if s = "REJECTED" ∨ s = "ERROR" then
      some (.ret { status := .rejected, response := some body
                 , error := jsOr body.error body.message })
    else if s = "PENDING" then some .next
    else none

/-- Format 2: direct `approval_code` field ('00'/'85' approve, 'ST' is still
processing, anything else rejects). -/
def checkApprovalCode (body : StatusBody) : Option StepOut :=
  match body.approval_code with
  | none => none
  | some code =>
    if code = "00" ∨ code = "85" then
      some (.ret { status := .approved, response := some body, error := none })
    else if code = "ST" then some .next
    else
      some (.ret { status := .rejected, response := some body
                 , error := some (jsOrStr body.response_message
                     ("Transaction declined (Code: " ++ code ++ ")")) })

/-- Format 3: nested `transaction` object with the same approval-code
semantics; a nested object without an approval code rejects with the code
rendered as `undefined`, as the JavaScript template does. -/
def checkNestedTransaction (body : StatusBody) : Option StepOut :=
  match body.transaction with
  | none => none
  | some txn =>
    match txn.approval_code with
    | some code =>
      if code = "00" ∨ code = "85" then
        some (.ret { status := .approved, response := some body, error := none })
      else if code = "ST" then some .next
      else
        some (.ret { status := .rejected, response := some body
                   , error := some (jsOrStr txn.response_message
                       ("Transaction declined (Code: " ++ code ++ ")")) })
    | none =>
      some (.ret { status := .rejected, response := some body
                 , error := some (jsOrStr txn.response_message
                     "Transaction declined (Code: undefined)") })

/-- Format 4: an error-shaped body (`error_code`/`error_message` present). -/
def checkErrorFields (body : StatusBody) : Option StepOut :=
  if body.error_code.isSome ∨ body.error_message.isSome then
    some (.ret { status := .rejected, response := some body
               , error := some (jsOrStr body.error_message "Transaction failed") })
  else none

/-- One polling attempt.  A thrown transport error is caught and returned as
an `error` result immediately; a non-200 HTTP status likewise.  A 200 body is
probed through formats 1-4 in order; a body matching none of them means
"still processing": sleep and continue. -/
def pollStep : AttemptResponse → StepOut
  | .transportError msg =>
    .ret { status := .error, response := none, error := some msg }
  | .response httpStatus body =>
    if httpStatus ≠ 200 then
      .ret { status := .error, response := none
           , error := some (body.error_message.getD "Status check failed") }
    else
      match checkStatusField body with
      | some out => out
      | none =>
        match checkApprovalCode body with
        | some out => out
        | none =>
          match checkNestedTransaction body with
          | some out => out
          | none =>
            match checkErrorFields body with
            | some out => out
            | none => .next

/-- The `for (attempt = 0; attempt < maxAttempts; attempt++)` loop over the
list of responses the attempts would observe, in order. -/
def pollAuxL (maxAttempts : Nat) : List AttemptResponse → PollResult
  | [] => timeoutResult maxAttempts
  | a :: rest =>
    match pollStep a with
    | .ret r => r
    | .next => pollAuxL maxAttempts rest

/-- `pollTransactionStatus`: attempt `i` (for `i < maxAttempts`) observes
`responses i`; the loop stops at the first attempt whose step returns, and
times out when all attempts are consumed. -/
def pollTransactionStatus (responses : Nat → AttemptResponse) (maxAttempts : Nat) :
    PollResult :=
  pollAuxL maxAttempts ((List.range maxAttempts).map responses)

/-- Number of status-check calls a run of the loop makes on a given list of
observable responses. -/
def attemptsUsedL : List AttemptResponse → Nat
  | [] => 0
  | a :: rest =>
    match pollStep a with
    | .ret _ => 1
    | .next => 1 + attemptsUsedL rest

/-- Number of status-check calls `pollTransactionStatus` makes. -/
def pollAttemptsUsed (responses : Nat → AttemptResponse) (maxAttempts : Nat) : Nat :=
  attemptsUsedL ((List.range maxAttempts).map responses)

/-! ## Part Transaction Initiator (`startSplitPartTransaction`) -/

/-- The fields of a start-sale vendor response body the initiator probes. -/
structure InitBody where
  trx_id : Option String
  error_message : Option String
  error_code : Option String
  response_message : Option String
deriving DecidableEq, Repr

/-- The vendor's reaction to one initiation request: the call throws, or
returns `(body, httpStatus)`. -/
inductive InitVendorAttempt
  | thrown (msg : String)
  | response (httpStatus : Nat) (body : InitBody)
deriving DecidableEq, Repr

/-- Normalized outcome of `startSplitPartTransaction`. -/
structure InitResult where
  success : Bool
  trx_id : Option String
  error : Option String
deriving DecidableEq, Repr

/-- `startSplitPartTransaction` (src/app/lib/split-payment-helpers.ts): the
outcome-normalization logic.  A throw is caught into a failure; a non-200
status or a body without `trx_id` is a failure whose message is extracted by
probing `error_message`, then `error_code`, then `response_message` (in the
`error_code` branch `error_message` is known absent, so the `|| 'Unknown
error'` fallback fires); the raw-body `JSON.stringify` tail of the last
fallback is elided.  Otherwise the transaction id is returned. -/
def startSplitPartTransaction (v : InitVendorAttempt) : InitResult :=
  match v with
  | .thrown msg => { success := false, trx_id := none, error := some msg }
  | .response httpStatus body =>
    if httpStatus ≠ 200 ∨ body.trx_id = none then
      let errorDetails :=
        match body.error_message with
        | some m => m
        | none =>
          match body.error_code with
          | some c => "Error " ++ c ++ ": Unknown error"
          | none =>
            match body.response_message with
            | some m => m ++ " (Status: " ++ toString httpStatus ++ ")"
            | none => "Transaction failed (HTTP " ++ toString httpStatus ++ ")"
      { success := false, trx_id := none, error := some errorDetails }
    else
      { success := true, trx_id := body.trx_id, error := none }

/-! ## Progress Store (src/app/lib/split-payment-store.ts)

The module-level `Map` is modelled as a function from keys to optional
stored entries.  `Date.now()` and the `Math.random() < 0.1` cleanup trigger
are explicit parameters. -/

/-- Lifecycle status of one split part (`SplitPaymentPartStatus.status`). -/
inductive PartLifecycle
  | pending
  | processing
  | approved
  | rejected
  | error
deriving DecidableEq, Repr

/-- `SplitPaymentPartStatus` (wall-clock timestamps and the echoed vendor
transaction detail elided). -/
structure PartStatus where
  part_number : Nat
  payment_method : String
  label : String
  status : PartLifecycle
  amounts : TransactionAmounts
  message : Option String
  trx_id : Option String
  error : Option String
deriving DecidableEq, Repr

/-- Overall status of the aggregate (`SplitPaymentResponse.status`). -/
inductive AggStatus
  | pending
  | processing
  | completed
  | failed
deriving DecidableEq, Repr

/-- `SplitPaymentResponse`: the aggregate root. -/
structure SplitPaymentResponse where
  split_trx_id : String
  status : AggStatus
  message : String
  parts : List PartStatus
  reference : String
  total_amounts : TransactionAmounts
deriving DecidableEq, Repr

/-- `StoredSplitPayment`: the aggregate plus the `_stored_at` bookkeeping
timestamp added by the store. -/
structure StoredSplitPayment where
  data : SplitPaymentResponse
  stored_at : Nat
deriving DecidableEq, Repr

/-- The in-memory key-value store. -/
def Store : Type := String → Option StoredSplitPayment

/-- `STORE_LIFETIME_MS = 24 * 60 * 60 * 1000`. -/
def STORE_LIFETIME_MS : Nat := 24 * 60 * 60 * 1000

/-- `cleanupExpiredEntries`: removes every entry whose (truthy, hence
non-zero) `_stored_at` lies more than the lifetime before `now`. -/
def cleanupExpiredEntries (now : Nat) (s : Store) : Store :=
  fun k =>
    match s k with
    | none => none
    | some v =>
      if v.stored_at ≠ 0 ∧ STORE_LIFETIME_MS < now - v.stored_at then none
      else some v

/-- `saveSplitPayment`: stores the aggregate stamped with `now`, then runs
the opportunistic cleanup when the 10%-probability coin (`cleanupCoin`)
comes up. -/
def saveSplitPayment (key : String) (data : SplitPaymentResponse) (now : Nat)
    (cleanupCoin : Bool) (s : Store) : Store :=
  let s' : Store := fun k => if k = key then some { data := data, stored_at := now } else s k
  if cleanupCoin then cleanupExpiredEntries now s' else s'

/-- `getSplitPayment`: strips the `_stored_at` bookkeeping field. -/
def getSplitPayment (key : String) (s : Store) : Option SplitPaymentResponse :=
  (s key).map StoredSplitPayment.data

/-- `updateSplitPayment`: merges only when the key exists.  The orchestrator
always passes the whole aggregate as the update, so the merge replaces the
data and keeps `_stored_at`. -/
def updateSplitPayment (key : String) (updates : SplitPaymentResponse) (s : Store) :
    Bool × Store :=
  match s key with
  | none => (false, s)
  | some existing =>
    (true, fun k => if k = key then some { data := updates, stored_at := existing.stored_at }
                    else s k)

/-- `splitPaymentExists`. -/
def splitPaymentExists (key : String) (s : Store) : Bool :=
  (s key).isSome

/-- `deleteSplitPayment`. -/
def deleteSplitPayment (key : String) (s : Store) : Bool × Store :=
  ((s key).isSome, fun k => if k = key then none else s k)

/-! ## Orchestrator (`POST /api/evertec/sales/split-payment`, route.ts)

The endpoint's environment — the vendor's reply to each part's initiation
request, the status-check responses each part's polling run would observe,
the generated split-transaction id, `Date.now()` and the cleanup coin — is
packaged in `OrchestratorEnv`.  The terminal/station/cashier identity and
receipt preferences are pass-through strings no verified property mentions,
so they are elided from the payload; the numeric `reference` string is
modelled as the integer `parseInt` yields, and `session_id`'s JavaScript
emptiness check is kept. -/

/-- `createInitialPartStatuses` (split-payment-helpers.ts): one pending part
status per split, amounts allocated by percentage.  For non-integral
percentages the default label renders the rational differently from
JavaScript; no verified property mentions labels. -/
def createInitialPartStatusesAux (totalAmounts : TransactionAmounts) :
    Nat → List SplitPaymentPart → List PartStatus
  | _, [] => []
  | index, split :: rest =>
    { part_number := index + 1
    , payment_method := split.payment_method
    , label := jsOrStr split.label
        ("Payment " ++ toString (index + 1) ++ " (" ++ toString split.percentage ++ "%)")
    , status := .pending
    , amounts := calculateSplitAmounts totalAmounts split.percentage
    , message := none
    , trx_id := none
    , error := none } :: createInitialPartStatusesAux totalAmounts (index + 1) rest

/-- `createInitialPartStatuses`. -/
def createInitialPartStatuses (splits : List SplitPaymentPart)
    (totalAmounts : TransactionAmounts) : List PartStatus :=
  createInitialPartStatusesAux totalAmounts 0 splits

/-- The validated request payload (fields the core logic reads). -/
structure SplitPaymentPayload where
  amounts : TransactionAmounts
  splits : List SplitPaymentPart
  reference : Int
  last_reference : String
  session_id : String
  max_polling_attempts : Nat
deriving Repr

/-- Everything nondeterministic the endpoint consumes: per-part initiation
responses, per-part status-response streams, the generated id, the clock
value at save time and the cleanup coin. -/
structure OrchestratorEnv where
  initResponses : Nat → InitVendorAttempt
  statusResponses : Nat → Nat → AttemptResponse
  split_trx_id : String
  now : Nat
  cleanupCoin : Bool

/-- One recorded call to the initiation collaborator: which part, with which
payment method and which reference pair. -/
structure InitCall where
  partIndex : Nat
  payment_method : String
  reference : String
  last_reference : String
deriving DecidableEq, Repr

/-- Builds the aggregate as the route materializes it before each persist. -/
def mkResponse (key : String) (payload : SplitPaymentPayload) (status : AggStatus)
    (message : String) (parts : List PartStatus) : SplitPaymentResponse :=
  { split_trx_id := key
  , status := status
  , message := message
  , parts := parts
  , reference := toString payload.reference
  , total_amounts := payload.amounts }

/-- The sequential part loop of the route (route.ts lines 137-226): for each
part, mark it processing and persist; initiate (recording the reference pair
used); on initiation failure mark the part `error`, the aggregate `failed`,
persist and stop; otherwise record the transaction id, persist, poll; on
approval mark the part `approved`, persist, advance the reference chain and
continue; on any other poll outcome mark the part `rejected`/`error`, the
aggregate `failed`, persist and stop.  After the last part the aggregate is
marked `completed` and persisted.  Returns the final aggregate, the final
store and the list of initiation calls made. -/
def runSplitParts (env : OrchestratorEnv) (payload : SplitPaymentPayload)
    (key : String) (total : Nat) :
    Nat → String → Int → List PartStatus → List (SplitPaymentPart × PartStatus) →
    Store → List InitCall → SplitPaymentResponse × Store × List InitCall
  | _, _, _, done, [], store, calls =>
    let resp := mkResponse key payload .completed
      "All split payments completed successfully" done
    (resp, (updateSplitPayment key resp store).2, calls)
  | i, lastRef, curRef, done, (splitConfig, part) :: rest, store, calls =>
    let part1 := { part with
      status := .processing
      , message := some ("Processing payment " ++ toString (i + 1) ++ " of " ++ toString total) }
    let respProcessing := mkResponse key payload .processing
      ("Processing part " ++ toString (i + 1) ++ " of " ++ toString total)
      (done ++ part1 :: rest.map Prod.snd)
    let store1 := (updateSplitPayment key respProcessing store).2
    let calls1 := calls ++
      [{ partIndex := i, payment_method := splitConfig.payment_method
       , reference := toString curRef, last_reference := lastRef }]
    let startResult := startSplitPartTransaction (env.initResponses i)
    if startResult.success then
      let part2 := { part1 with trx_id := startResult.trx_id }
      let resp2 := mkResponse key payload .processing
        ("Processing part " ++ toString (i + 1) ++ " of " ++ toString total)
        (done ++ part2 :: rest.map Prod.snd)
      let store2 := (updateSplitPayment key resp2 store1).2
      let pollResult := pollTransactionStatus (env.statusResponses i) payload.max_polling_attempts
      if pollResult.status = .approved then
        let part3 := { part2 with status := .approved, message := some "Transaction approved" }
        let resp3 := mkResponse key payload .processing
          ("Processing part " ++ toString (i + 1) ++ " of " ++ toString total)
          (done ++ part3 :: rest.map Prod.snd)
        let store3 := (updateSplitPayment key resp3 store2).2
        runSplitParts env payload key total (i + 1) (toString curRef) (curRef + 1)
          (done ++ [part3]) rest store3 calls1
      else
        let part3 := { part2 with
          status := if pollResult.status = .rejected then .rejected else .error
          , error := some (jsOrStr pollResult.error
              ("Transaction " ++ pollStatusStr pollResult.status)) }
        let resp3 := mkResponse key payload .failed
          ("Part " ++ toString (i + 1) ++ " " ++ pollStatusStr pollResult.status ++ ": " ++
            jsUndef pollResult.error)
          (done ++ part3 :: rest.map Prod.snd)
        (resp3, (updateSplitPayment key resp3 store2).2, calls1)
    else
      let partE := { part1 with status := .error, error := startResult.error }
      let respF := mkResponse key payload .failed
        ("Part " ++ toString (i + 1) ++ " failed to start: " ++ jsUndef startResult.error)
        (done ++ partE :: rest.map Prod.snd)
      (respF, (updateSplitPayment key respF store1).2, calls1)

/-- Outcome of the endpoint: a pre-aggregate validation error (error code and
message of the 400 response) or the final aggregate (returned with 200 both
when `completed` and when `failed`). -/
inductive PostResult
  | validationError (error_code : String) (error_message : String)
  | ok (resp : SplitPaymentResponse)
deriving DecidableEq, Repr

/-- The aggregate of a non-error outcome. -/
def PostResult.response? : PostResult → Option SplitPaymentResponse
  | .ok r => some r
  | .validationError _ _ => none

/-- The create-save-and-run tail of the `POST` handler once all validation
has passed: create the aggregate with all parts pending, save it, and run
the sequential part loop seeded with the caller-supplied reference pair. -/
def postRun (env : OrchestratorEnv) (payload : SplitPaymentPayload) (store : Store) :
    SplitPaymentResponse × Store × List InitCall :=
  let key := env.split_trx_id
  let parts := createInitialPartStatuses payload.splits payload.amounts
  let splitResponse := mkResponse key payload .processing
    "Starting split payment processing" parts
  let store0 := saveSplitPayment key splitResponse env.now env.cleanupCoin store
  runSplitParts env payload key parts.length 0
    payload.last_reference payload.reference [] (payload.splits.zip parts) store0 []

/-- The `POST` handler (route.ts): required-field validation (of the modelled
fields only `session_id` can be JavaScript-falsy), tax-pairing validation,
split-configuration validation; then the create-save-and-run tail.  Returns
the outcome, the final store and the initiation calls made. -/
def POST (env : OrchestratorEnv) (payload : SplitPaymentPayload) (store : Store) :
    PostResult × Store × List InitCall :=
  if payload.session_id = "" then
    (.validationError "MISSING_FIELD" "session_id is required", store, [])
  else
    let taxValidation := validateTransactionAmounts payload.amounts
    if taxValidation.valid then
      let splitValidation := validateSplitConfiguration payload.splits
      if splitValidation.valid then
        let out := postRun env payload store
        (.ok out.1, out.2.1, out.2.2)
      else
        (.validationError "INVALID_SPLIT_CONFIG" (jsUndef splitValidation.error), store, [])
    else
      (.validationError "TAX_VALIDATION_ERROR" (jsUndef taxValidation.error), store, [])

/-! ## Derived per-part views of the environment, used to state the loop's
behaviour. -/

/-- The normalized initiation outcome of part `i`. -/
def partInit (env : OrchestratorEnv) (i : Nat) : InitResult :=
  startSplitPartTransaction (env.initResponses i)

/-- The polling outcome of part `i`. -/
def partPoll (env : OrchestratorEnv) (payload : SplitPaymentPayload) (i : Nat) : PollResult :=
  pollTransactionStatus (env.statusResponses i) payload.max_polling_attempts

/-- Part `i` succeeds end to end: initiation succeeds and polling approves. -/
def partOk (env : OrchestratorEnv) (payload : SplitPaymentPayload) (i : Nat) : Bool :=
  (partInit env i).success && decide ((partPoll env payload i).status = .approved)

/-- The initiation calls the loop makes from loop index `i`, preceding
reference `lastRef` and current reference `curRef`: one call per part, the
chain advancing (preceding := just-used, current := current + 1) only past a
part that succeeds end to end, and no call past the first failing part. -/
def chainCalls (env : OrchestratorEnv) (payload : SplitPaymentPayload) :
    Nat → String → Int → List (SplitPaymentPart × PartStatus) → List InitCall
  | _, _, _, [] => []
  | i, lastRef, curRef, (splitConfig, _) :: rest =>
    { partIndex := i, payment_method := splitConfig.payment_method
    , reference := toString curRef, last_reference := lastRef } ::
    (if partOk env payload i then
      chainCalls env payload (i + 1) (toString curRef) (curRef + 1) rest
    else [])

/-- The stored shape of input part `(splitConfig, part)` at loop index `i`
after it is approved. -/
def approvedPartAt (env : OrchestratorEnv) (i : Nat)
    (pr : SplitPaymentPart × PartStatus) : PartStatus :=
  { pr.2 with
    status := .approved
    , message := some "Transaction approved"
    , trx_id := (partInit env i).trx_id }

/-- The stored shapes of a run of consecutively approved parts starting at
loop index `i`. -/
def approvedParts (env : OrchestratorEnv) :
    Nat → List (SplitPaymentPart × PartStatus) → List PartStatus
  | _, [] => []
  | i, pr :: rest => approvedPartAt env i pr :: approvedParts env (i + 1) rest

/-- The stored shape of input part `pr` at loop index `i` when it is the
first failing part. -/
def failedPart (env : OrchestratorEnv) (payload : SplitPaymentPayload) (total i : Nat)
    (pr : SplitPaymentPart × PartStatus) : PartStatus :=
  let part1 := { pr.2 with
    status := PartLifecycle.processing
    , message := some ("Processing payment " ++ toString (i + 1) ++ " of " ++ toString total) }
  let ir := partInit env i
  if ir.success then
    let pl := partPoll env payload i
    { part1 with
      trx_id := ir.trx_id
      , status := if pl.status = .rejected then .rejected else .error
      , error := some (jsOrStr pl.error ("Transaction " ++ pollStatusStr pl.status)) }
  else
    { part1 with status := .error, error := ir.error }

/-- The aggregate message recorded when part `i` is the first failing part. -/
def failMessage (env : OrchestratorEnv) (payload : SplitPaymentPayload) (i : Nat) : String :=
  let ir := partInit env i
  if ir.success then
    let pl := partPoll env payload i
    "Part " ++ toString (i + 1) ++ " " ++ pollStatusStr pl.status ++ ": " ++ jsUndef pl.error
  else
    "Part " ++ toString (i + 1) ++ " failed to start: " ++ jsUndef ir.error

/-! ## Projections of an endpoint outcome, for stating observable facts. -/

/-- Overall status of the returned aggregate, when one was returned. -/
def respStatus (out : PostResult) : Option AggStatus :=
  (out.response?).map SplitPaymentResponse.status

/-- Message of the returned aggregate, when one was returned. -/
def respMessage (out : PostResult) : Option String :=
  (out.response?).map SplitPaymentResponse.message

/-- Lifecycle status stored for part `k` of the returned aggregate. -/
def statusAt (out : PostResult) (k : Nat) : Option PartLifecycle :=
  match out with
  | .ok r => (r.parts.map PartStatus.status).get? k
  | .validationError _ _ => none

/-- Error text stored for part `k` of the returned aggregate. -/
def errorAt (out : PostResult) (k : Nat) : Option (Option String) :=
  match out with
  | .ok r => (r.parts.map PartStatus.error).get? k
  | .validationError _ _ => none

/-! ## Concrete fixtures (the spec's scenario A and small vendor streams). -/

/-- Scenario A total: $6.40 with the guide's tax breakdown
(5.74 / 0.00 / 0.60 / 0.00 base-and-tax pairs plus $0.06 city tax). -/
def amounts640 : TransactionAmounts :=
  { total := 32/5, base_state_tax := some (287/50), base_reduced_tax := some 0
  , tip := none, state_tax := some (3/5), reduced_tax := some 0
  , city_tax := some (3/50), cashback := none }

/-- Scenario A parts: 58.438% card / 31.25% mobile wallet / 10.312% card. -/
def splits3 : List SplitPaymentPart :=
  [ { payment_method := "card", percentage := 58438/1000, label := some "VISA Partial Payment" }
  , { payment_method := "ath-movil", percentage := 3125/100, label := some "ATH Movil Payment" }
  , { payment_method := "card", percentage := 10312/1000, label := some "Cash Payment" } ]

/-- A parts list whose percentages sum to 95. -/
def splits95 : List SplitPaymentPart :=
  [ { payment_method := "card", percentage := 50, label := none }
  , { payment_method := "ath-movil", percentage := 45, label := none } ]

/-- A status body reporting an explicit APPROVED status. -/
def approvedBody : StatusBody :=
  { status := some "APPROVED", message := none, error := none, approval_code := none
  , response_message := none, transaction := none, error_code := none, error_message := none }

/-- A status body reporting an explicit REJECTED status with a reason. -/
def rejectedBody : StatusBody :=
  { status := some "REJECTED", message := none, error := some "DECLINED", approval_code := none
  , response_message := none, transaction := none, error_code := none, error_message := none }

/-- A 200 body carrying none of the fields the poller recognizes. -/
def blankBody : StatusBody :=
  { status := none, message := none, error := none, approval_code := none
  , response_message := none, transaction := none, error_code := none, error_message := none }

/-- A status stream whose first attempt hits a transport error while the next
attempt would report APPROVED. -/
def respC3 : Nat → AttemptResponse := fun i =>
  if i = 0 then .transportError "boom" else .response 200 approvedBody

/-- A status stream that always reports APPROVED. -/
def approvedStream : Nat → AttemptResponse := fun _ => .response 200 approvedBody

/-- A status stream that never matches a recognized shape. -/
def blankStream : Nat → AttemptResponse := fun _ => .response 200 blankBody

/-- Environment in which every initiation succeeds and every poll approves. -/
def env3 : OrchestratorEnv :=
  { initResponses := fun i => .response 200
      { trx_id := some ("TX" ++ toString i), error_message := none
      , error_code := none, response_message := none }
  , statusResponses := fun _ => approvedStream
  , split_trx_id := "SPT-TEST", now := 1000, cleanupCoin := false }

/-- Environment in which part 2 (index 1) is rejected by polling. -/
def env3fail : OrchestratorEnv :=
  { env3 with statusResponses := fun i =>
      if i = 1 then fun _ => .response 200 rejectedBody else approvedStream }

/-- Environment in which part 1 (index 0) polling never resolves. -/
def envTimeout : OrchestratorEnv :=
  { env3 with statusResponses := fun _ => blankStream }

/-- Scenario A request: reference 100, preceding reference 99. -/
def payload3 : SplitPaymentPayload :=
  { amounts := amounts640, splits := splits3, reference := 100, last_reference := "99"
  , session_id := "S", max_polling_attempts := 60 }

/-- A request with percentages summing to 95 (otherwise like scenario A). -/
def payload95 : SplitPaymentPayload :=
  { payload3 with splits := splits95 }

/-- Scenario A request with a small polling budget, for the timeout run. -/
def payloadTO : SplitPaymentPayload :=
  { payload3 with max_polling_attempts := 2 }

/-- The empty store. -/
def emptyStore : Store := fun _ => none

/-- A trivial completed aggregate used to populate store fixtures. -/
def demoResp : SplitPaymentResponse :=
  { split_trx_id := "OLD", status := .completed, message := "done", parts := []
  , reference := "1"
  , total_amounts := { total := 1, base_state_tax := none, base_reduced_tax := none
                     , tip := none, state_tax := none, reduced_tax := none
                     , city_tax := none, cashback := none } }

/-- A store holding one aggregate saved at time 1. -/
def demoStore : Store :=
  fun k => if k = "OLD" then some { data := demoResp, stored_at := 1 } else none

/-! ## Theorems -/

/-- The computable `Rat.floor` used by `roundTo2` agrees with `Int.floor`. -/
theorem ratFloor_eq_intFloor (q : ℚ) : q.floor = Int.floor q := by
  rw [Rat.floor_def', Rat.floor_def]

/-- `roundTo2` lands on a grid point of the 2-decimal grid. -/
theorem roundTo2_grid (u : ℚ) : ∃ n : ℤ, roundTo2 u = n / 100 :=
  ⟨(u * 100 + 1 / 2).floor, rfl⟩

/-- `roundTo2 u` is the half-up rounding of `u`: it lies in the half-open
interval `(u - 1/200, u + 1/200]`, so an exact half rounds to the larger
2-decimal value. -/
theorem roundTo2_halfUp (u : ℚ) :
    u - 1 / 200 < roundTo2 u ∧ roundTo2 u ≤ u + 1 / 200 := by
  unfold roundTo2
  rw [ratFloor_eq_intFloor]
  constructor
  · have h := Int.sub_one_lt_floor (u * 100 + 1 / 2)
    nlinarith [h]
  · have h := Int.floor_le (u * 100 + 1 / 2)
    nlinarith [h]

/-- C4: the allocator multiplies the total and every present optional field
by `percentage/100` and rounds each product to two decimals with `roundTo2`,
which is standard half-up currency rounding: it always lands on a 2-decimal
grid point, the one in the half-open interval ending 1/200 above the exact
value (so exact halves round up); on the $6.40 scenario the
58.438%/31.25%/10.312% parts get totals $3.74, $2.00 and $0.66, which sum
back to $6.40. -/
theorem calculateSplitAmounts_spec :
    (∀ u : ℚ, ∃ n : ℤ, roundTo2 u = n / 100)
    ∧ (∀ u : ℚ, u - 1 / 200 < roundTo2 u ∧ roundTo2 u ≤ u + 1 / 200)
    ∧ (∀ (a : TransactionAmounts) (p : ℚ),
      (calculateSplitAmounts a p).total = roundTo2 (a.total * (p / 100))
      ∧ (calculateSplitAmounts a p).base_state_tax
          = a.base_state_tax.map (fun v => roundTo2 (v * (p / 100)))
      ∧ (calculateSplitAmounts a p).base_reduced_tax
          = a.base_reduced_tax.map (fun v => roundTo2 (v * (p / 100)))
      ∧ (calculateSplitAmounts a p).tip = a.tip.map (fun v => roundTo2 (v * (p / 100)))
      ∧ (calculateSplitAmounts a p).state_tax
          = a.state_tax.map (fun v => roundTo2 (v * (p / 100)))
      ∧ (calculateSplitAmounts a p).reduced_tax
          = a.reduced_tax.map (fun v => roundTo2 (v * (p / 100)))
      ∧ (calculateSplitAmounts a p).city_tax
          = a.city_tax.map (fun v => roundTo2 (v * (p / 100)))
      ∧ (calculateSplitAmounts a p).cashback
          = a.cashback.map (fun v => roundTo2 (v * (p / 100))))
    ∧ (calculateSplitAmounts amounts640 (58438/1000)).total = 374/100
    ∧ (calculateSplitAmounts amounts640 (3125/100)).total = 200/100
    ∧ (calculateSplitAmounts amounts640 (10312/1000)).total = 66/100
    ∧ (calculateSplitAmounts amounts640 (58438/1000)).total
        + (calculateSplitAmounts amounts640 (3125/100)).total
        + (calculateSplitAmounts amounts640 (10312/1000)).total = amounts640.total := by
  have h1 : (calculateSplitAmounts amounts640 (58438/1000)).total = 374/100 := by
    show roundTo2 (32/5 * (58438/1000 / 100)) = 374/100
    unfold roundTo2
    rw [ratFloor_eq_intFloor]
    norm_num
  have h2 : (calculateSplitAmounts amounts640 (3125/100)).total = 200/100 := by
    show roundTo2 (32/5 * (3125/100 / 100)) = 200/100
    unfold roundTo2
    rw [ratFloor_eq_intFloor]
    norm_num
  have h3 : (calculateSplitAmounts amounts640 (10312/1000)).total = 66/100 := by
    show roundTo2 (32/5 * (10312/1000 / 100)) = 66/100
    unfold roundTo2
    rw [ratFloor_eq_intFloor]
    norm_num
  refine ⟨roundTo2_grid, roundTo2_halfUp,
    fun a p => ⟨rfl, rfl, rfl, rfl, rfl, rfl, rfl, rfl⟩, h1, h2, h3, ?_⟩
  rw [h1, h2, h3]
  show (374:ℚ)/100 + 200/100 + 66/100 = 32/5
  norm_num

/-- C5: a field of the allocated output is present exactly when it is
present on the input, for every optional field of the tax-structured amount
(so present pairs stay fully present, and absent fields stay absent; the
value 0 is an ordinary present value). -/
theorem calculateSplitAmounts_presence (a : TransactionAmounts) (p : ℚ) :
    (calculateSplitAmounts a p).base_state_tax.isSome = a.base_state_tax.isSome
    ∧ (calculateSplitAmounts a p).base_reduced_tax.isSome = a.base_reduced_tax.isSome
    ∧ (calculateSplitAmounts a p).tip.isSome = a.tip.isSome
    ∧ (calculateSplitAmounts a p).state_tax.isSome = a.state_tax.isSome
    ∧ (calculateSplitAmounts a p).reduced_tax.isSome = a.reduced_tax.isSome
    ∧ (calculateSplitAmounts a p).city_tax.isSome = a.city_tax.isSome
    ∧ (calculateSplitAmounts a p).cashback.isSome = a.cashback.isSome := by
  simp [calculateSplitAmounts, Option.isSome_map']

/-- The per-part loop accepts exactly the lists whose every part has a
percentage in `(0, 100]` and a payment method in the closed set. -/
theorem validateParts_valid_iff (splits : List SplitPaymentPart) :
    ∀ i, (validateParts i splits).valid = true ↔
      ∀ s ∈ splits, 0 < s.percentage ∧ s.percentage ≤ 100 ∧
        (s.payment_method = "card" ∨ s.payment_method = "ath-movil") := by
  induction splits with
  | nil => intro i; simp [validateParts]
  | cons s rest ih =>
    intro i
    by_cases hp : s.percentage ≤ 0 ∨ 100 < s.percentage
    · simp only [validateParts, if_pos hp]
      constructor
      · intro h; cases h
      · intro h
        rcases h s (by simp) with ⟨h1, h2, _⟩
        rcases hp with hp | hp
        · exact absurd h1 (not_lt.mpr hp)
        · exact absurd h2 (not_le.mpr hp)
    · have hp' : 0 < s.percentage ∧ s.percentage ≤ 100 := by
        push_neg at hp; exact hp
      by_cases hm : s.payment_method ∈ (["card", "ath-movil"] : List String)
      · simp only [validateParts, if_neg hp, if_neg (not_not_intro hm)]
        rw [ih (i + 1)]
        constructor
        · intro h t ht
          rcases List.mem_cons.mp ht with rfl | ht'
          · exact ⟨hp'.1, hp'.2, by simpa using hm⟩
          · exact h t ht'
        · intro h t ht
          exact h t (List.mem_cons_of_mem _ ht)
      · simp only [validateParts, if_neg hp, if_pos hm]
        constructor
        · intro h; cases h
        · intro h
          rcases h s (by simp) with ⟨_, _, h3⟩
          exact absurd (by simpa using h3) hm

/-- C6: the validator accepts exactly the configurations with a nonempty
list of at most 10 parts, percentages each in (0, 100] and payment methods
in the closed set, whose percentage sum is within 0.01 of 100; and a sum
violation is reported with the rendered actual sum in the message. -/
theorem validateSplitConfiguration_spec (splits : List SplitPaymentPart) :
    ((validateSplitConfiguration splits).valid = true ↔
      (splits ≠ [] ∧ splits.length ≤ 10 ∧ |totalPercentage splits - 100| ≤ 1/100 ∧
        ∀ s ∈ splits, 0 < s.percentage ∧ s.percentage ≤ 100 ∧
          (s.payment_method = "card" ∨ s.payment_method = "ath-movil")))
    ∧ (splits ≠ [] → splits.length ≤ 10 → 1/100 < |totalPercentage splits - 100| →
        (validateSplitConfiguration splits).valid = false ∧
        (validateSplitConfiguration splits).error =
          some ("Split percentages must sum to 100%, got " ++
            toString (totalPercentage splits) ++ "%")) := by
  constructor
  · by_cases h0 : splits.length = 0
    · simp only [validateSplitConfiguration, if_pos h0]
      simp [List.eq_nil_of_length_eq_zero h0]
    · by_cases h10 : 10 < splits.length
      · simp only [validateSplitConfiguration, if_neg h0, if_pos h10]
        constructor
        · intro h; cases h
        · intro ⟨_, hle, _⟩; omega
      · by_cases hsum : 1/100 < |totalPercentage splits - 100|
        · simp only [validateSplitConfiguration, if_neg h0, if_neg h10, if_pos hsum]
          constructor
          · intro h; cases h
          · intro ⟨_, _, hs, _⟩; exact absurd hsum (not_lt.mpr hs)
        · simp only [validateSplitConfiguration, if_neg h0, if_neg h10, if_neg hsum]
          rw [validateParts_valid_iff splits 0]
          constructor
          · intro h
            exact ⟨fun hnil => h0 (by simp [hnil]), by omega, not_lt.mp hsum, h⟩
          · intro ⟨_, _, _, h⟩; exact h
  · intro hnil h10 hsum
    have h0 : ¬ splits.length = 0 := fun h => hnil (List.eq_nil_of_length_eq_zero h)
    simp only [validateSplitConfiguration, if_neg h0, if_neg (by omega : ¬ 10 < splits.length),
      if_pos hsum]
    exact ⟨by simp, by simp⟩

/-! ### Poller lemmas -/

/-- The loop consumes at most as many attempts as there are responses. -/
theorem attemptsUsedL_le (l : List AttemptResponse) : attemptsUsedL l ≤ l.length := by
  induction l with
  | nil => simp [attemptsUsedL]
  | cons a rest ih =>
    simp only [attemptsUsedL, List.length_cons]
    split
    · omega
    · omega

/-- If every observed attempt says "continue", the loop times out. -/
theorem pollAuxL_all_next (M : Nat) (l : List AttemptResponse)
    (h : ∀ a ∈ l, pollStep a = .next) : pollAuxL M l = timeoutResult M := by
  induction l with
  | nil => rfl
  | cons a rest ih =>
    have ha := h a (by simp)
    simp only [pollAuxL, ha]
    exact ih (fun b hb => h b (List.mem_cons_of_mem _ hb))

/-- The loop returns the result of the first attempt whose step returns. -/
theorem pollAuxL_prefix_ret (M : Nat) (l₁ l₂ : List AttemptResponse)
    (a : AttemptResponse) (r : PollResult)
    (h₁ : ∀ b ∈ l₁, pollStep b = .next) (ha : pollStep a = .ret r) :
    pollAuxL M (l₁ ++ a :: l₂) = r := by
  induction l₁ with
  | nil => simp [pollAuxL, ha]
  | cons b rest ih =>
    have hb := h₁ b (by simp)
    simp only [List.cons_append, pollAuxL, hb]
    exact ih (fun c hc => h₁ c (List.mem_cons_of_mem _ hc))

/-- Splitting a mapped range at an inner index. -/
theorem range_map_decomp {α : Type} (f : Nat → α) (i M : Nat) (h : i < M) :
    (List.range M).map f =
      ((List.range i).map f) ++ f i ::
        ((List.range (M - i - 1)).map (fun j => f (i + 1 + j))) := by
  obtain ⟨k, rfl⟩ : ∃ k, M = i + (k + 1) := ⟨M - i - 1, by omega⟩
  have hk : i + (k + 1) - i - 1 = k := by omega
  have hsplit : List.range' 0 (i + (k + 1)) = List.range' 0 i ++ List.range' i (k + 1) := by
    have h2 := List.range'_append 0 i (k + 1) 1
    simp only [Nat.one_mul, Nat.zero_add] at h2
    rw [Nat.add_comm i (k + 1)]
    exact h2.symm
  rw [hk, List.range_eq_range', hsplit, List.map_append, List.range'_succ,
    ← List.range_eq_range']
  simp only [List.map_cons]
  congr 1
  congr 1
  rw [List.range'_eq_map_range, List.map_map]
  rfl

/-- C7: polling makes at most `maxAttempts` status-check calls; the first
attempt whose step reaches a returning outcome determines the result
immediately (in particular an approval or rejection observed by attempt `i`
is returned at attempt `i`); and if every attempt within the budget says
"still pending", the run returns the `timeout` result. -/
theorem pollTransactionStatus_bounded (responses : Nat → AttemptResponse) (maxAttempts : Nat) :
    pollAttemptsUsed responses maxAttempts ≤ maxAttempts
    ∧ (∀ i r, i < maxAttempts → (∀ j, j < i → pollStep (responses j) = .next) →
        pollStep (responses i) = .ret r →
        pollTransactionStatus responses maxAttempts = r)
    ∧ ((∀ i, i < maxAttempts → pollStep (responses i) = .next) →
        pollTransactionStatus responses maxAttempts = timeoutResult maxAttempts) := by
  refine ⟨?_, ?_, ?_⟩
  · calc attemptsUsedL ((List.range maxAttempts).map responses)
        ≤ ((List.range maxAttempts).map responses).length := attemptsUsedL_le _
      _ = maxAttempts := by simp
  · intro i r hi hprev hret
    unfold pollTransactionStatus
    rw [range_map_decomp responses i maxAttempts hi]
    refine pollAuxL_prefix_ret _ _ _ _ _ ?_ hret
    intro b hb
    rcases List.mem_map.mp hb with ⟨j, hj, rfl⟩
    exact hprev j (List.mem_range.mp hj)
  · intro hall
    unfold pollTransactionStatus
    refine pollAuxL_all_next _ _ ?_
    intro b hb
    rcases List.mem_map.mp hb with ⟨j, hj, rfl⟩
    exact hall j (List.mem_range.mp hj)

/-- Witness for C7: a stream approving on the first attempt, with budget 3,
returns the approval immediately. -/
theorem pollTransactionStatus_bounded_witness :
    (0:Nat) < 3 ∧
    pollTransactionStatus approvedStream 3 =
      { status := .approved, response := some approvedBody, error := none } :=
  ⟨by decide,
    (pollTransactionStatus_bounded approvedStream 3).2.1 0
      { status := .approved, response := some approvedBody, error := none }
      (by decide) (fun j hj => absurd hj (by omega)) (by decide)⟩

/-- C3 counterexample: with a five-attempt budget, a transport error on the
first attempt is returned as an `error` outcome immediately, although
attempts remain and the very next attempt would have observed APPROVED (the
claimed still-pending treatment would have returned `approved`). -/
theorem pollTransactionStatus_transport_not_pending :
    pollStep (respC3 0) = .ret { status := .error, response := none, error := some "boom" }
    ∧ pollStep (respC3 1) =
        .ret { status := .approved, response := some approvedBody, error := none }
    ∧ pollTransactionStatus respC3 5 =
        { status := .error, response := none, error := some "boom" }
    ∧ (pollTransactionStatus respC3 5).status ≠ PollStatus.approved := by
  refine ⟨by decide, by decide, by decide, by decide⟩

/-- C3 (amended): an HTTP-200 response matching none of the recognized
shapes is treated as still pending — it consumes one attempt and, if every
budgeted attempt is like that, the run ends in the `timeout` result — while
a thrown transport error or a non-200 response surfaces immediately as an
`error` outcome regardless of remaining attempts. -/
theorem pollTransactionStatus_shape_tolerance (msg : String) (body : StatusBody)
    (responses : Nat → AttemptResponse) (httpStatus M : Nat) :
    pollStep (.transportError msg) =
      .ret { status := .error, response := none, error := some msg }
    ∧ (body.status = none → body.approval_code = none → body.transaction = none →
        body.error_code = none → body.error_message = none →
        pollStep (.response 200 body) = .next)
    ∧ (httpStatus ≠ 200 →
        pollStep (.response httpStatus body) =
          .ret { status := .error, response := none
               , error := some (body.error_message.getD "Status check failed") })
    ∧ ((∀ i, i < M → pollStep (responses i) = .next) →
        pollTransactionStatus responses M = timeoutResult M) := by
  refine ⟨rfl, ?_, ?_, ?_⟩
  · intro h1 h2 h3 h4 h5
    simp [pollStep, checkStatusField, checkApprovalCode, checkNestedTransaction,
      checkErrorFields, h1, h2, h3, h4, h5]
  · intro h
    simp [pollStep, h]
  · intro hall
    unfold pollTransactionStatus
    refine pollAuxL_all_next _ _ ?_
    intro b hb
    rcases List.mem_map.mp hb with ⟨j, hj, rfl⟩
    exact hall j (List.mem_range.mp hj)

/-- Witness for the amended C3: one unrecognized-shape body steps to `next`;
a two-attempt budget of such bodies times out; and a transport error steps to
an immediate error return. -/
theorem pollTransactionStatus_shape_tolerance_witness :
    pollStep (.transportError "boom") =
      .ret { status := .error, response := none, error := some "boom" }
    ∧ pollStep (.response 200 blankBody) = .next
    ∧ pollStep (.response 504 blankBody) =
        .ret { status := .error, response := none, error := some "Status check failed" }
    ∧ pollTransactionStatus blankStream 2 = timeoutResult 2 := by
  have h := pollTransactionStatus_shape_tolerance "boom" blankBody blankStream 504 2
  exact ⟨h.1, h.2.1 rfl rfl rfl rfl rfl, h.2.2.1 (by decide),
    h.2.2.2 (fun i _ => by simp [blankStream]; exact h.2.1 rfl rfl rfl rfl rfl)⟩

/-! ### Store lemmas -/

/-- C9: an aggregate stored strictly more than the retention window ago is
removed by the opportunistic cleanup that a later write triggers (here: a
save of some other key whose cleanup coin comes up), after which `get`
returns nothing for it. -/
theorem storeExpiry (s : Store) (k newKey : String) (data : SplitPaymentResponse)
    (e : StoredSplitPayment) (now : Nat)
    (hmem : s k = some e) (hpos : 0 < e.stored_at)
    (hexp : e.stored_at + STORE_LIFETIME_MS < now) (hne : k ≠ newKey) :
    getSplitPayment k (saveSplitPayment newKey data now true s) = none := by
  have hcond : e.stored_at ≠ 0 ∧ STORE_LIFETIME_MS < now - e.stored_at :=
    ⟨by omega, by omega⟩
  simp [getSplitPayment, saveSplitPayment, cleanupExpiredEntries, hne, hmem,
    hcond.1, hcond.2]

/-- Witness for C9: the aggregate stored at time 1 is gone after a
cleanup-triggering save at a time past the 24-hour window. -/
theorem storeExpiry_witness :
    getSplitPayment "OLD" (saveSplitPayment "NEW" demoResp 100000000000 true demoStore)
      = none :=
  storeExpiry demoStore "OLD" "NEW" demoResp { data := demoResp, stored_at := 1 }
    100000000000 (by simp [demoStore]) (by decide) (by decide) (by decide)

/-! ### Orchestrator loop lemmas -/

/-- Updating an existing key stores the new data under the old timestamp. -/
theorem updateSplitPayment_self (s : Store) (key : String) (r : SplitPaymentResponse)
    (e : StoredSplitPayment) (h : s key = some e) :
    ((updateSplitPayment key r s).2) key = some { data := r, stored_at := e.stored_at } := by
  simp [updateSplitPayment, h]

/-- A fresh save is visible at its own key (the opportunistic cleanup never
removes the entry just written, whose age is zero). -/
theorem saveSplitPayment_self (key : String) (d : SplitPaymentResponse) (now : Nat)
    (coin : Bool) (s : Store) :
    (saveSplitPayment key d now coin s) key = some { data := d, stored_at := now } := by
  cases coin with
  | false => simp [saveSplitPayment]
  | true =>
    simp [saveSplitPayment, cleanupExpiredEntries, STORE_LIFETIME_MS]

/-- Format 1 never yields a returning step whose status is `timeout`. -/
theorem checkStatusField_ret (body : StatusBody) (r : PollResult)
    (h : checkStatusField body = some (.ret r)) : r.status ≠ .timeout := by
  unfold checkStatusField at h
  repeat' split at h
  all_goals (cases h <;> simp)

/-- Format 2 never yields a returning step whose status is `timeout`. -/
theorem checkApprovalCode_ret (body : StatusBody) (r : PollResult)
    (h : checkApprovalCode body = some (.ret r)) : r.status ≠ .timeout := by
  unfold checkApprovalCode at h
  repeat' split at h
  all_goals (cases h <;> simp)

/-- Format 3 never yields a returning step whose status is `timeout`. -/
theorem checkNestedTransaction_ret (body : StatusBody) (r : PollResult)
    (h : checkNestedTransaction body = some (.ret r)) : r.status ≠ .timeout := by
  unfold checkNestedTransaction at h
  repeat' split at h
  all_goals (cases h <;> simp)

/-- Format 4 never yields a returning step whose status is `timeout`. -/
theorem checkErrorFields_ret (body : StatusBody) (r : PollResult)
    (h : checkErrorFields body = some (.ret r)) : r.status ≠ .timeout := by
  unfold checkErrorFields at h
  repeat' split at h
  all_goals (cases h <;> simp)

/-- No single polling attempt returns a `timeout`-status result. -/
theorem pollStep_ret_status (a : AttemptResponse) (r : PollResult)
    (h : pollStep a = .ret r) : r.status ≠ .timeout := by
  rcases a with msg | ⟨httpStatus, body⟩
  · simp only [pollStep, StepOut.ret.injEq] at h
    subst h; simp
  · by_cases h200 : httpStatus ≠ 200
    · simp only [pollStep, if_pos h200, StepOut.ret.injEq] at h
      subst h; simp
    · rcases h1 : checkStatusField body with _ | out1
      · rcases h2 : checkApprovalCode body with _ | out2
        · rcases h3 : checkNestedTransaction body with _ | out3
          · rcases h4 : checkErrorFields body with _ | out4
            · simp only [pollStep, if_neg h200, h1, h2, h3, h4] at h
              cases h
            · simp only [pollStep, if_neg h200, h1, h2, h3, h4] at h
              subst h
              exact checkErrorFields_ret _ _ h4
          · simp only [pollStep, if_neg h200, h1, h2, h3] at h
            subst h
            exact checkNestedTransaction_ret _ _ h3
        · simp only [pollStep, if_neg h200, h1, h2] at h
          subst h
          exact checkApprovalCode_ret _ _ h2
      · simp only [pollStep, if_neg h200, h1] at h
        subst h
        exact checkStatusField_ret _ _ h1

/-- The poller returns a `timeout`-status result only by exhausting its
budget, so such a result is exactly `timeoutResult`. -/
theorem pollResult_timeout_eq (responses : Nat → AttemptResponse) (M : Nat)
    (h : (pollTransactionStatus responses M).status = .timeout) :
    pollTransactionStatus responses M = timeoutResult M := by
  unfold pollTransactionStatus at h ⊢
  revert h
  generalize (List.range M).map responses = l
  induction l with
  | nil => intro _; rfl
  | cons a rest ih =>
    intro hts
    simp only [pollAuxL] at hts ⊢
    cases hstep : pollStep a with
    | ret r =>
      rw [hstep] at hts
      exact absurd hts (pollStep_ret_status a r hstep)
    | next =>
      rw [hstep] at hts
      exact ih hts

/-- The loop's recorded initiation calls are exactly `chainCalls`. -/
theorem runSplitParts_calls (env : OrchestratorEnv) (payload : SplitPaymentPayload)
    (key : String) (total : Nat) :
    ∀ (todo : List (SplitPaymentPart × PartStatus)) (i : Nat) (lastRef : String)
      (curRef : Int) (done : List PartStatus) (store : Store) (calls : List InitCall),
    (runSplitParts env payload key total i lastRef curRef done todo store calls).2.2 =
      calls ++ chainCalls env payload i lastRef curRef todo := by
  intro todo
  induction todo with
  | nil =>
    intro i lastRef curRef done store calls
    simp [runSplitParts, chainCalls]
  | cons pr rest ih =>
    intro i lastRef curRef done store calls
    obtain ⟨sc, p⟩ := pr
    by_cases hs : (startSplitPartTransaction (env.initResponses i)).success = true
    · by_cases hp : (pollTransactionStatus (env.statusResponses i)
          payload.max_polling_attempts).status = .approved
      · have hok : partOk env payload i = true := by
          simp [partOk, partInit, partPoll, hs, hp]
        simp [runSplitParts, hs, hp, ih, chainCalls, hok, List.append_assoc]
      · have hok : partOk env payload i = false := by
          simp [partOk, partInit, partPoll, hs, hp]
        simp [runSplitParts, hs, hp, chainCalls, hok]
    · have hok : partOk env payload i = false := by
        rw [Bool.not_eq_true] at hs
        simp [partOk, partInit, hs]
      simp [runSplitParts, hs, chainCalls, hok]

/-- Entry `j` of the chain uses reference `curRef + j` and, past the first
entry, a preceding reference equal to the just-used reference. -/
theorem chainCalls_get? (env : OrchestratorEnv) (payload : SplitPaymentPayload) :
    ∀ (todo : List (SplitPaymentPart × PartStatus)) (i : Nat) (lastRef : String)
      (curRef : Int) (j : Nat) (c : InitCall),
    (chainCalls env payload i lastRef curRef todo).get? j = some c →
    c.reference = toString (curRef + (j : Int)) ∧
    c.last_reference = (if j = 0 then lastRef else toString (curRef + (j : Int) - 1)) := by
  intro todo
  induction todo with
  | nil => intro i lastRef curRef j c h; simp [chainCalls] at h
  | cons pr rest ih =>
    intro i lastRef curRef j c h
    obtain ⟨sc, p⟩ := pr
    cases j with
    | zero =>
      simp only [chainCalls, List.get?_cons_zero, Option.some.injEq] at h
      subst h
      constructor
      · simp
      · simp
    | succ j' =>
      simp only [chainCalls, List.get?_cons_succ] at h
      by_cases hok : partOk env payload i = true
      · rw [if_pos hok] at h
        obtain ⟨h1, h2⟩ := ih (i + 1) (toString curRef) (curRef + 1) j' c h
        constructor
        · rw [h1]
          congr 1
          push_cast
          ring
        · rw [h2]
          cases j' with
          | zero => simp
          | succ j'' =>
            simp only [Nat.succ_ne_zero, if_false]
            congr 1
            push_cast
            ring
      · rw [if_neg hok] at h
        simp at h

/-- The chain never makes more calls than there are parts. -/
theorem chainCalls_length_le (env : OrchestratorEnv) (payload : SplitPaymentPayload) :
    ∀ (todo : List (SplitPaymentPart × PartStatus)) (i : Nat) (lastRef : String)
      (curRef : Int),
    (chainCalls env payload i lastRef curRef todo).length ≤ todo.length := by
  intro todo
  induction todo with
  | nil => intro i lastRef curRef; simp [chainCalls]
  | cons pr rest ih =>
    intro i lastRef curRef
    obtain ⟨sc, p⟩ := pr
    simp only [chainCalls, List.length_cons]
    by_cases hok : partOk env payload i = true
    · rw [if_pos hok]
      have := ih (i + 1) (toString curRef) (curRef + 1)
      omega
    · rw [if_neg hok]
      simp

/-- A call after call `j` exists only if part `j` succeeded end to end. -/
theorem chainCalls_advance_only_ok (env : OrchestratorEnv) (payload : SplitPaymentPayload) :
    ∀ (todo : List (SplitPaymentPart × PartStatus)) (i : Nat) (lastRef : String)
      (curRef : Int) (j : Nat) (c : InitCall),
    (chainCalls env payload i lastRef curRef todo).get? (j + 1) = some c →
    partOk env payload (i + j) = true := by
  intro todo
  induction todo with
  | nil => intro i lastRef curRef j c h; simp [chainCalls] at h
  | cons pr rest ih =>
    intro i lastRef curRef j c h
    obtain ⟨sc, p⟩ := pr
    simp only [chainCalls, List.get?_cons_succ] at h
    by_cases hok : partOk env payload i = true
    · rw [if_pos hok] at h
      cases j with
      | zero => simpa using hok
      | succ j' =>
        have := ih (i + 1) (toString curRef) (curRef + 1) j' c h
        have harith : i + 1 + j' = i + (j' + 1) := by omega
        rwa [harith] at this
    · rw [if_neg hok] at h
      simp at h

/-- Every part up to (and including) the first failing one is attempted. -/
theorem chainCalls_attempted (env : OrchestratorEnv) (payload : SplitPaymentPayload) :
    ∀ (k : Nat) (todo : List (SplitPaymentPart × PartStatus)) (i : Nat)
      (lastRef : String) (curRef : Int),
    k < todo.length → (∀ j, j < k → partOk env payload (i + j) = true) →
    k < (chainCalls env payload i lastRef curRef todo).length := by
  intro k
  induction k with
  | zero =>
    intro todo i lastRef curRef hk _
    cases todo with
    | nil => simp at hk
    | cons pr rest =>
      obtain ⟨sc, p⟩ := pr
      simp [chainCalls]
  | succ k' ih =>
    intro todo i lastRef curRef hk hprev
    cases todo with
    | nil => simp at hk
    | cons pr rest =>
      obtain ⟨sc, p⟩ := pr
      have hok : partOk env payload i = true := by
        have := hprev 0 (by omega)
        simpa using this
      simp only [chainCalls, if_pos hok, List.length_cons]
      have : k' < (chainCalls env payload (i + 1) (toString curRef) (curRef + 1) rest).length := by
        apply ih rest (i + 1) (toString curRef) (curRef + 1)
        · simpa using hk
        · intro j hj
          have := hprev (j + 1) (by omega)
          have harith : i + (j + 1) = i + 1 + j := by omega
          rwa [harith] at this
      omega

/-- Reading back just after an update of an existing key yields the update. -/
theorem updateSplitPayment_get (s : Store) (key : String) (r : SplitPaymentResponse)
    (h : (s key).isSome) :
    getSplitPayment key ((updateSplitPayment key r s).2) = some r := by
  rcases hs : s key with _ | e
  · rw [hs] at h; simp at h
  · simp [updateSplitPayment, getSplitPayment, hs]

/-- An update of an existing key keeps the key present. -/
theorem updateSplitPayment_isSome (s : Store) (key : String) (r : SplitPaymentResponse)
    (h : (s key).isSome) :
    (((updateSplitPayment key r s).2) key).isSome := by
  rcases hs : s key with _ | e
  · rw [hs] at h; simp at h
  · simp [updateSplitPayment, hs]

/-- Through the whole loop, the aggregate's key stays present, and the store
finally read back at that key is exactly the returned final aggregate. -/
theorem runSplitParts_store (env : OrchestratorEnv) (payload : SplitPaymentPayload)
    (key : String) (total : Nat) :
    ∀ (todo : List (SplitPaymentPart × PartStatus)) (i : Nat) (lastRef : String)
      (curRef : Int) (done : List PartStatus) (store : Store) (calls : List InitCall),
    (store key).isSome →
    getSplitPayment key
        ((runSplitParts env payload key total i lastRef curRef done todo store calls).2.1) =
      some (runSplitParts env payload key total i lastRef curRef done todo store calls).1 := by
  intro todo
  induction todo with
  | nil =>
    intro i lastRef curRef done store calls he
    simp only [runSplitParts]
    exact updateSplitPayment_get store key _ he
  | cons pr rest ih =>
    intro i lastRef curRef done store calls he
    obtain ⟨sc, p⟩ := pr
    by_cases hs : (startSplitPartTransaction (env.initResponses i)).success = true
    · by_cases hp : (pollTransactionStatus (env.statusResponses i)
          payload.max_polling_attempts).status = .approved
      · simp only [runSplitParts, hs, hp, if_true, if_pos]
        apply ih
        apply updateSplitPayment_isSome
        apply updateSplitPayment_isSome
        apply updateSplitPayment_isSome
        exact he
      · simp only [runSplitParts, hs, hp, if_true, if_neg hp]
        apply updateSplitPayment_get
        apply updateSplitPayment_isSome
        apply updateSplitPayment_isSome
        exact he
    · simp only [runSplitParts, hs, if_false, Bool.false_eq_true]
      apply updateSplitPayment_get
      apply updateSplitPayment_isSome
      exact he

/-- When every remaining part succeeds end to end, the loop completes the
aggregate with every part stored in approved shape. -/
theorem runSplitParts_allOk (env : OrchestratorEnv) (payload : SplitPaymentPayload)
    (key : String) (total : Nat) :
    ∀ (todo : List (SplitPaymentPart × PartStatus)) (i : Nat) (lastRef : String)
      (curRef : Int) (done : List PartStatus) (store : Store) (calls : List InitCall),
    (∀ j, j < todo.length → partOk env payload (i + j) = true) →
    (runSplitParts env payload key total i lastRef curRef done todo store calls).1 =
      mkResponse key payload .completed "All split payments completed successfully"
        (done ++ approvedParts env i todo) := by
  intro todo
  induction todo with
  | nil =>
    intro i lastRef curRef done store calls _
    simp [runSplitParts, approvedParts]
  | cons pr rest ih =>
    intro i lastRef curRef done store calls hall
    obtain ⟨sc, p⟩ := pr
    have hok : partOk env payload i = true := by
      have := hall 0 (by simp)
      simpa using this
    have hs : (startSplitPartTransaction (env.initResponses i)).success = true := by
      simp only [partOk, partInit, Bool.and_eq_true] at hok
      exact hok.1
    have hp : (pollTransactionStatus (env.statusResponses i)
        payload.max_polling_attempts).status = .approved := by
      simp only [partOk, partPoll, Bool.and_eq_true, decide_eq_true_eq] at hok
      exact hok.2
    simp only [runSplitParts, hs, hp, if_true, if_pos]
    rw [ih (i + 1) (toString curRef) (curRef + 1) _ _ _
      (fun j hj => by
        have := hall (j + 1) (by simpa using hj)
        have harith : i + (j + 1) = i + 1 + j := by omega
        rwa [harith] at this)]
    simp only [approvedParts, approvedPartAt, partInit]
    rw [List.append_assoc]
    rfl

/-- When part `i + k` is the first failing part among the remaining ones,
the loop stops there: the parts before it are stored approved, it is stored
in its failing shape, everything after stays untouched, and the aggregate is
`failed` with the corresponding message. -/
theorem runSplitParts_firstFail (env : OrchestratorEnv) (payload : SplitPaymentPayload)
    (key : String) (total : Nat) :
    ∀ (k : Nat) (todo : List (SplitPaymentPart × PartStatus)) (i : Nat)
      (lastRef : String) (curRef : Int) (done : List PartStatus) (store : Store)
      (calls : List InitCall) (hk : k < todo.length),
    (∀ j, j < k → partOk env payload (i + j) = true) →
    partOk env payload (i + k) = false →
    (runSplitParts env payload key total i lastRef curRef done todo store calls).1 =
      mkResponse key payload .failed (failMessage env payload (i + k))
        (done ++ approvedParts env i (todo.take k) ++
          failedPart env payload total (i + k) (todo.get ⟨k, hk⟩) ::
          (todo.drop (k + 1)).map Prod.snd) := by
  intro k
  induction k with
  | zero =>
    intro todo i lastRef curRef done store calls hk _ hfail
    cases todo with
    | nil => simp at hk
    | cons pr rest =>
      obtain ⟨sc, p⟩ := pr
      rw [Nat.add_zero] at hfail
      by_cases hs : (startSplitPartTransaction (env.initResponses i)).success = true
      · have hp : ¬ (pollTransactionStatus (env.statusResponses i)
            payload.max_polling_attempts).status = .approved := by
          intro hp
          rw [show partOk env payload i = true by
            simp [partOk, partInit, partPoll, hs, hp]] at hfail
          cases hfail
        simp only [runSplitParts, hs, if_true, if_neg hp]
        simp only [failMessage, failedPart, partInit, partPoll, hs, if_true, Nat.add_zero,
          List.take_zero, approvedParts, List.nil_append, List.get, List.drop_succ_cons,
          List.drop_zero, mkResponse]
        simp [List.append_assoc]
      · simp only [runSplitParts, hs, if_false, Bool.false_eq_true]
        rw [Bool.not_eq_true] at hs
        simp only [failMessage, failedPart, partInit, hs, Bool.false_eq_true, if_false,
          Nat.add_zero, List.take_zero, approvedParts, List.nil_append, List.get,
          List.drop_succ_cons, List.drop_zero, mkResponse]
        simp [List.append_assoc]
  | succ k' ih =>
    intro todo i lastRef curRef done store calls hk hprev hfail
    cases todo with
    | nil => simp at hk
    | cons pr rest =>
      obtain ⟨sc, p⟩ := pr
      have hok : partOk env payload i = true := by
        have := hprev 0 (by omega)
        simpa using this
      have hs : (startSplitPartTransaction (env.initResponses i)).success = true := by
        simp only [partOk, partInit, Bool.and_eq_true] at hok
        exact hok.1
      have hp : (pollTransactionStatus (env.statusResponses i)
          payload.max_polling_attempts).status = .approved := by
        simp only [partOk, partPoll, Bool.and_eq_true, decide_eq_true_eq] at hok
        exact hok.2
      simp only [runSplitParts, hs, hp, if_true, if_pos]
      have hk' : k' < rest.length := by simpa using hk
      rw [ih rest (i + 1) (toString curRef) (curRef + 1) _ _ _ hk'
        (fun j hj => by
          have := hprev (j + 1) (by omega)
          have harith : i + (j + 1) = i + 1 + j := by omega
          rwa [harith] at this)
        (by
          have harith : i + (k' + 1) = i + 1 + k' := by omega
          rwa [harith] at hfail)]
      have harith : i + 1 + k' = i + (k' + 1) := by omega
      simp only [harith, List.take_succ_cons, approvedParts, List.get, List.drop_succ_cons,
        approvedPartAt, partInit, mkResponse]
      simp [List.append_assoc]

/-- Initial statuses are one per split. -/
theorem createInitialPartStatusesAux_length (a : TransactionAmounts) :
    ∀ (splits : List SplitPaymentPart) (i : Nat),
    (createInitialPartStatusesAux a i splits).length = splits.length := by
  intro splits
  induction splits with
  | nil => intro i; rfl
  | cons s rest ih => intro i; simp [createInitialPartStatusesAux, ih]

/-- Initial statuses are all `pending`. -/
theorem createInitialPartStatusesAux_pending (a : TransactionAmounts) :
    ∀ (splits : List SplitPaymentPart) (i : Nat) (p : PartStatus),
    p ∈ createInitialPartStatusesAux a i splits → p.status = .pending := by
  intro splits
  induction splits with
  | nil => intro i p h; simp [createInitialPartStatusesAux] at h
  | cons s rest ih =>
    intro i p h
    simp only [createInitialPartStatusesAux, List.mem_cons] at h
    rcases h with rfl | h
    · rfl
    · exact ih (i + 1) p h

/-- Every part stored by a fully successful run is `approved`. -/
theorem approvedParts_status (env : OrchestratorEnv) :
    ∀ (todo : List (SplitPaymentPart × PartStatus)) (i : Nat) (q : PartStatus),
    q ∈ approvedParts env i todo → q.status = .approved := by
  intro todo
  induction todo with
  | nil => intro i q h; simp [approvedParts] at h
  | cons pr rest ih =>
    intro i q h
    simp only [approvedParts, List.mem_cons] at h
    rcases h with rfl | h
    · rfl
    · exact ih (i + 1) q h

/-- A failing part is stored `rejected` or `error`, never anything else. -/
theorem failedPart_status (env : OrchestratorEnv) (payload : SplitPaymentPayload)
    (total i : Nat) (pr : SplitPaymentPart × PartStatus) :
    (failedPart env payload total i pr).status = .rejected ∨
    (failedPart env payload total i pr).status = .error := by
  by_cases hs : (partInit env i).success = true
  · by_cases hr : (partPoll env payload i).status = .rejected
    · left; simp [failedPart, hs, hr]
    · right; simp [failedPart, hs, hr]
  · right; simp [failedPart, hs]

/-- Under passing validation, `POST` runs the loop. -/
theorem POST_ok_eq (env : OrchestratorEnv) (payload : SplitPaymentPayload) (store : Store)
    (h1 : payload.session_id ≠ "")
    (h2 : (validateTransactionAmounts payload.amounts).valid = true)
    (h3 : (validateSplitConfiguration payload.splits).valid = true) :
    POST env payload store =
      (.ok (postRun env payload store).1, (postRun env payload store).2.1,
        (postRun env payload store).2.2) := by
  simp [POST, h1, h2, h3]

/-- The saved key is present when the loop starts, so the final store read
back at the split id is the returned aggregate. -/
theorem postRun_store (env : OrchestratorEnv) (payload : SplitPaymentPayload)
    (store : Store) :
    getSplitPayment env.split_trx_id (postRun env payload store).2.1 =
      some (postRun env payload store).1 := by
  unfold postRun
  apply runSplitParts_store
  rw [saveSplitPayment_self]
  rfl

/-- The loop's calls as seen from the endpoint. -/
theorem postRun_calls (env : OrchestratorEnv) (payload : SplitPaymentPayload)
    (store : Store) :
    (postRun env payload store).2.2 =
      chainCalls env payload 0 payload.last_reference payload.reference
        (payload.splits.zip (createInitialPartStatuses payload.splits payload.amounts)) := by
  unfold postRun
  rw [runSplitParts_calls]
  simp

/-- The zipped work list is exactly one entry per split. -/
theorem zip_parts_length (payload : SplitPaymentPayload) :
    (payload.splits.zip (createInitialPartStatuses payload.splits payload.amounts)).length
      = payload.splits.length := by
  rw [List.length_zip, createInitialPartStatuses, createInitialPartStatusesAux_length]
  simp

/-- The endpoint's aggregate when every part succeeds end to end. -/
theorem postRun_allOk (env : OrchestratorEnv) (payload : SplitPaymentPayload)
    (store : Store)
    (hall : ∀ j, j < payload.splits.length → partOk env payload j = true) :
    (postRun env payload store).1 =
      mkResponse env.split_trx_id payload .completed
        "All split payments completed successfully"
        (approvedParts env 0
          (payload.splits.zip (createInitialPartStatuses payload.splits payload.amounts))) := by
  unfold postRun
  rw [runSplitParts_allOk]
  · simp
  · intro j hj
    rw [zip_parts_length] at hj
    simpa using hall j hj

/-- The endpoint's aggregate when part `k` is the first failing part. -/
theorem postRun_firstFail (env : OrchestratorEnv) (payload : SplitPaymentPayload)
    (store : Store) (k : Nat)
    (hk : k < (payload.splits.zip
        (createInitialPartStatuses payload.splits payload.amounts)).length)
    (hprev : ∀ j, j < k → partOk env payload j = true)
    (hfail : partOk env payload k = false) :
    (postRun env payload store).1 =
      mkResponse env.split_trx_id payload .failed (failMessage env payload k)
        (approvedParts env 0
            ((payload.splits.zip
              (createInitialPartStatuses payload.splits payload.amounts)).take k) ++
          failedPart env payload
              (createInitialPartStatuses payload.splits payload.amounts).length k
              ((payload.splits.zip
                (createInitialPartStatuses payload.splits payload.amounts)).get ⟨k, hk⟩) ::
          (((payload.splits.zip
              (createInitialPartStatuses payload.splits payload.amounts)).drop (k + 1)).map
            Prod.snd)) := by
  unfold postRun
  rw [runSplitParts_firstFail env payload env.split_trx_id _ k _ 0 _ _ _ _ _ hk
    (fun j hj => by simpa using hprev j hj) (by simpa using hfail)]
  simp

/-- C1: for an accepted request with initial reference `R` and preceding
reference `P`, initiation call `j` carries reference `R + j`, and preceding
reference `P` for the first call and `R + j - 1` (the just-used reference)
for every later one; at most one call per part is made; a call after call
`j` is made only when part `j` was approved end to end (the chain advances
only on approval, and no part after a failing one is attempted); and every
part up to the first failure — in particular part 1 — is attempted. -/
theorem referenceChain_spec (env : OrchestratorEnv) (payload : SplitPaymentPayload)
    (store : Store) (h1 : payload.session_id ≠ "")
    (h2 : (validateTransactionAmounts payload.amounts).valid = true)
    (h3 : (validateSplitConfiguration payload.splits).valid = true) :
    (∀ j c, ((POST env payload store).2.2).get? j = some c →
        c.reference = toString (payload.reference + (j : Int))
        ∧ c.last_reference = (if j = 0 then payload.last_reference
            else toString (payload.reference + (j : Int) - 1)))
    ∧ ((POST env payload store).2.2).length ≤ payload.splits.length
    ∧ (∀ j c, ((POST env payload store).2.2).get? (j + 1) = some c →
        partOk env payload j = true)
    ∧ (∀ k, k < payload.splits.length → (∀ j, j < k → partOk env payload j = true) →
        k < ((POST env payload store).2.2).length) := by
  have hcalls : (POST env payload store).2.2 =
      chainCalls env payload 0 payload.last_reference payload.reference
        (payload.splits.zip (createInitialPartStatuses payload.splits payload.amounts)) := by
    rw [POST_ok_eq env payload store h1 h2 h3]
    exact postRun_calls env payload store
  refine ⟨?_, ?_, ?_, ?_⟩
  · intro j c hc
    rw [hcalls] at hc
    exact chainCalls_get? env payload _ 0 _ _ j c hc
  · rw [hcalls]
    calc (chainCalls env payload 0 payload.last_reference payload.reference _).length
        ≤ (payload.splits.zip
            (createInitialPartStatuses payload.splits payload.amounts)).length :=
          chainCalls_length_le env payload _ 0 _ _
      _ = payload.splits.length := zip_parts_length payload
  · intro j c hc
    rw [hcalls] at hc
    have := chainCalls_advance_only_ok env payload _ 0 _ _ j c hc
    simpa using this
  · intro k hk hja
    rw [hcalls]
    refine chainCalls_attempted env payload k _ 0 _ _ ?_ ?_
    · rw [zip_parts_length]; exact hk
    · intro j hj
      simpa using hja j hj

/-- C8: a request rejected by split-configuration or tax-pairing validation
gets a validation-error response, leaves the store untouched, and triggers
no initiation call (and hence no vendor call at all, since polling only
follows a successful initiation). -/
theorem validationAtomicity (env : OrchestratorEnv) (payload : SplitPaymentPayload)
    (store : Store)
    (h : (validateSplitConfiguration payload.splits).valid = false ∨
         (validateTransactionAmounts payload.amounts).valid = false) :
    (∃ c m, (POST env payload store).1 = .validationError c m)
    ∧ (POST env payload store).2.1 = store
    ∧ (POST env payload store).2.2 = [] := by
  by_cases hsid : payload.session_id = ""
  · refine ⟨⟨"MISSING_FIELD", "session_id is required", ?_⟩, ?_, ?_⟩ <;>
      simp [POST, hsid]
  · by_cases htax : (validateTransactionAmounts payload.amounts).valid = true
    · have hcfg : (validateSplitConfiguration payload.splits).valid = false := by
        rcases h with h | h
        · exact h
        · rw [htax] at h; cases h
      refine ⟨⟨"INVALID_SPLIT_CONFIG",
        jsUndef (validateSplitConfiguration payload.splits).error, ?_⟩, ?_, ?_⟩ <;>
        simp [POST, hsid, htax, hcfg]
    · have htax' : (validateTransactionAmounts payload.amounts).valid = false := by
        rcases hb : (validateTransactionAmounts payload.amounts).valid with _ | _
        · rfl
        · exact absurd hb htax
      refine ⟨⟨"TAX_VALIDATION_ERROR",
        jsUndef (validateTransactionAmounts payload.amounts).error, ?_⟩, ?_, ?_⟩ <;>
        simp [POST, hsid, htax']

/-- One stored part per processed input part. -/
theorem approvedParts_length (env : OrchestratorEnv) :
    ∀ (todo : List (SplitPaymentPart × PartStatus)) (i : Nat),
    (approvedParts env i todo).length = todo.length := by
  intro todo
  induction todo with
  | nil => intro i; rfl
  | cons pr rest ih => intro i; simp [approvedParts, ih]

/-- Reading a mapped list at the junction point of an append-cons. -/
theorem get?_map_at_middle {α β : Type} (f : α → β) (pre : List α) (q : α) (post : List α) :
    ((pre ++ q :: post).map f).get? pre.length = some (f q) := by
  rw [List.map_append, List.get?_append_right (by simp)]
  simp

/-- Reading a mapped list at any index equal to the junction point. -/
theorem get?_map_at {α β : Type} (f : α → β) (pre : List α) (q : α) (post : List α)
    (n : Nat) (hn : pre.length = n) :
    ((pre ++ q :: post).map f).get? n = some (f q) := by
  subst hn
  exact get?_map_at_middle f pre q post

/-- The timeout message is never the empty string. -/
theorem timeoutMessage_ne_empty (M : Nat) : timeoutMessage M ≠ "" := by
  intro h
  have hlen := congrArg String.length h
  rw [timeoutMessage, String.length_append, String.length_append] at hlen
  have h43 : ("Transaction status polling timed out after " : String).length = 43 := by decide
  rw [h43] at hlen
  simp at hlen

/-- C2: under passing validation the endpoint returns an aggregate whose
status is `completed` exactly when every stored part is `approved`; a
`failed` aggregate consists of a prefix of approved parts, one part stored
`rejected` or `error` (the first failure, where the loop stopped), and only
`pending` parts after it; the aggregate's status is always `completed` or
`failed`; and the aggregate read back from the store under the split id is
exactly the returned one. -/
theorem orchestratorStatus_spec (env : OrchestratorEnv) (payload : SplitPaymentPayload)
    (store : Store) (h1 : payload.session_id ≠ "")
    (h2 : (validateTransactionAmounts payload.amounts).valid = true)
    (h3 : (validateSplitConfiguration payload.splits).valid = true) :
    (respStatus (POST env payload store).1 = some .completed ∨
     respStatus (POST env payload store).1 = some .failed)
    ∧ ∀ r, (POST env payload store).1.response? = some r →
        ((r.status = .completed ↔ ∀ p ∈ r.parts, p.status = .approved)
         ∧ (r.status = .failed → ∃ pre q post, r.parts = pre ++ q :: post
             ∧ (∀ x ∈ pre, x.status = .approved)
             ∧ (q.status = .rejected ∨ q.status = .error)
             ∧ (∀ x ∈ post, x.status = .pending))
         ∧ getSplitPayment env.split_trx_id (POST env payload store).2.1 = some r) := by
  rw [POST_ok_eq env payload store h1 h2 h3]
  have hstore := postRun_store env payload store
  by_cases hall : ∀ j, j < payload.splits.length → partOk env payload j = true
  · have hrun := postRun_allOk env payload store hall
    constructor
    · left
      simp [respStatus, PostResult.response?, hrun, mkResponse]
    · intro r hr
      simp only [PostResult.response?, Option.some.injEq] at hr
      subst hr
      rw [hrun] at hstore ⊢
      refine ⟨?_, ?_, hstore⟩
      · constructor
        · intro _ p hp
          simp only [mkResponse] at hp
          exact approvedParts_status env _ 0 p hp
        · intro _
          rfl
      · intro hfailed
        simp [mkResponse] at hfailed
  · push_neg at hall
    obtain ⟨j0, hj0n, hj0⟩ := hall
    have hj0' : partOk env payload j0 = false := by
      rcases hb : partOk env payload j0 with _ | _
      · rfl
      · exact absurd hb hj0
    have hex : ∃ j, partOk env payload j = false := ⟨j0, hj0'⟩
    have hkfalse : partOk env payload (Nat.find hex) = false := Nat.find_spec hex
    have hkmin : ∀ m, m < Nat.find hex → partOk env payload m = true := by
      intro m hm
      have hnot := Nat.find_min hex hm
      rcases hb : partOk env payload m with _ | _
      · exact absurd hb hnot
      · rfl
    have hkn : Nat.find hex < payload.splits.length :=
      lt_of_le_of_lt (Nat.find_min' hex hj0') hj0n
    have hkzip : Nat.find hex < (payload.splits.zip
        (createInitialPartStatuses payload.splits payload.amounts)).length := by
      rw [zip_parts_length]; exact hkn
    have hrun := postRun_firstFail env payload store (Nat.find hex) hkzip hkmin hkfalse
    constructor
    · right
      simp [respStatus, PostResult.response?, hrun, mkResponse]
    · intro r hr
      simp only [PostResult.response?, Option.some.injEq] at hr
      subst hr
      rw [hrun] at hstore ⊢
      have hqstat := failedPart_status env payload
        (createInitialPartStatuses payload.splits payload.amounts).length (Nat.find hex)
        ((payload.splits.zip
          (createInitialPartStatuses payload.splits payload.amounts)).get ⟨Nat.find hex, hkzip⟩)
      refine ⟨?_, ?_, hstore⟩
      · constructor
        · intro hc
          simp [mkResponse] at hc
        · intro hap
          have hq := hap (failedPart env payload
              (createInitialPartStatuses payload.splits payload.amounts).length (Nat.find hex)
              ((payload.splits.zip
                (createInitialPartStatuses payload.splits payload.amounts)).get
                  ⟨Nat.find hex, hkzip⟩))
            (by simp [mkResponse])
          rcases hqstat with hq' | hq' <;> rw [hq] at hq' <;> cases hq'
      · intro _
        refine ⟨_, _, _, rfl, ?_, hqstat, ?_⟩
        · intro x hx
          exact approvedParts_status env _ 0 x hx
        · intro x hx
          rcases List.mem_map.mp hx with ⟨pair, hpair, rfl⟩
          have hpairzip : pair ∈ payload.splits.zip
              (createInitialPartStatuses payload.splits payload.amounts) :=
            List.drop_subset _ _ hpair
          obtain ⟨p1, p2⟩ := pair
          have hmem2 := (List.of_mem_zip hpairzip).2
          exact createInitialPartStatusesAux_pending payload.amounts _ 0 p2 hmem2

/-- C10: when part `k`'s poll ends in `timeout` (after a successful
initiation, all earlier parts approved), the stored lifecycle status of part
`k` is `error` — `timeout` is not a storable part status, every stored status
lies in the five-value lifecycle set — and the timeout is visible only in the
part's error text and the aggregate message, both carrying the attempt count
via the poller's "timed out after N attempts" message. -/
theorem timeoutCollapse_spec (env : OrchestratorEnv) (payload : SplitPaymentPayload)
    (store : Store) (h1 : payload.session_id ≠ "")
    (h2 : (validateTransactionAmounts payload.amounts).valid = true)
    (h3 : (validateSplitConfiguration payload.splits).valid = true) (k : Nat)
    (hk : k < payload.splits.length)
    (hprev : ∀ j, j < k → partOk env payload j = true)
    (hinit : (partInit env k).success = true)
    (hpoll : (partPoll env payload k).status = .timeout) :
    statusAt (POST env payload store).1 k = some .error
    ∧ errorAt (POST env payload store).1 k =
        some (some (timeoutMessage payload.max_polling_attempts))
    ∧ respMessage (POST env payload store).1 =
        some ("Part " ++ toString (k + 1) ++ " timeout: " ++
          timeoutMessage payload.max_polling_attempts)
    ∧ ∀ r, (POST env payload store).1.response? = some r →
        ∀ p ∈ r.parts, p.status = .pending ∨ p.status = .processing ∨
          p.status = .approved ∨ p.status = .rejected ∨ p.status = .error := by
  have hpl : partPoll env payload k = timeoutResult payload.max_polling_attempts :=
    pollResult_timeout_eq (env.statusResponses k) payload.max_polling_attempts hpoll
  have hfail : partOk env payload k = false := by
    simp [partOk, hinit, hpoll]
  have hkzip : k < (payload.splits.zip
      (createInitialPartStatuses payload.splits payload.amounts)).length := by
    rw [zip_parts_length]; exact hk
  have hrun := postRun_firstFail env payload store k hkzip hprev hfail
  have hlenpre : (approvedParts env 0
      ((payload.splits.zip
        (createInitialPartStatuses payload.splits payload.amounts)).take k)).length = k := by
    rw [approvedParts_length, List.length_take]
    omega
  have hfp : failedPart env payload
      (createInitialPartStatuses payload.splits payload.amounts).length k
      ((payload.splits.zip
        (createInitialPartStatuses payload.splits payload.amounts)).get ⟨k, hkzip⟩) =
      { ((payload.splits.zip
          (createInitialPartStatuses payload.splits payload.amounts)).get ⟨k, hkzip⟩).2 with
        status := .error
        , message := some ("Processing payment " ++ toString (k + 1) ++ " of " ++
            toString (createInitialPartStatuses payload.splits payload.amounts).length)
        , trx_id := (partInit env k).trx_id
        , error := some (timeoutMessage payload.max_polling_attempts) } := by
    simp only [failedPart, hinit, if_true, hpl, timeoutResult]
    simp [jsOrStr, timeoutMessage_ne_empty]
  have hmsg : failMessage env payload k =
      "Part " ++ toString (k + 1) ++ " timeout: " ++
        timeoutMessage payload.max_polling_attempts := by
    simp only [failMessage, hinit, if_true, hpl, timeoutResult, pollStatusStr, jsUndef]
    have hlit : ∀ m : String, (" " : String) ++ ("timeout" ++ (": " ++ m)) =
        " timeout: " ++ m := by
      intro m
      have h1 : (" " : String) ++ ("timeout" ++ ": ") = " timeout: " := by decide
      rw [← h1, String.append_assoc, String.append_assoc]
    simp only [String.append_assoc]
    rw [hlit]
  rw [POST_ok_eq env payload store h1 h2 h3]
  refine ⟨?_, ?_, ?_, ?_⟩
  · show ((postRun env payload store).1.parts.map PartStatus.status).get? k = some .error
    rw [hrun]
    simp only [mkResponse]
    rw [get?_map_at PartStatus.status _ _ _ k hlenpre, hfp]
  · show ((postRun env payload store).1.parts.map PartStatus.error).get? k =
      some (some (timeoutMessage payload.max_polling_attempts))
    rw [hrun]
    simp only [mkResponse]
    rw [get?_map_at PartStatus.error _ _ _ k hlenpre, hfp]
  · show some (postRun env payload store).1.message = _
    rw [hrun]
    simp only [mkResponse]
    rw [hmsg]
  · intro r hr p hp
    cases hps : p.status <;> simp [hps]

/-- The scenario-A percentages sum to exactly 100. -/
theorem totalPercentage_splits3 : totalPercentage splits3 = 100 := by
  simp only [totalPercentage, splits3, List.foldl]
  norm_num

/-- The scenario-A configuration passes validation. -/
theorem splits3_config_valid : (validateSplitConfiguration splits3).valid = true := by
  have h0 : ¬ (splits3.length = 0) := by decide
  have h10 : ¬ (10 < splits3.length) := by decide
  have habs : ¬ (1 / 100 < |totalPercentage splits3 - 100|) := by
    rw [totalPercentage_splits3]; norm_num
  simp only [validateSplitConfiguration, if_neg h0, if_neg h10, if_neg habs]
  rw [validateParts_valid_iff]
  intro s hs
  simp only [splits3, List.mem_cons, List.not_mem_nil, or_false] at hs
  rcases hs with rfl | rfl | rfl
  · exact ⟨by norm_num, by norm_num, Or.inl rfl⟩
  · exact ⟨by norm_num, by norm_num, Or.inr rfl⟩
  · exact ⟨by norm_num, by norm_num, Or.inl rfl⟩

/-- The 50/45 percentages sum to exactly 95. -/
theorem totalPercentage_splits95 : totalPercentage splits95 = 95 := by
  simp only [totalPercentage, splits95, List.foldl]
  norm_num

/-- The 50/45 configuration fails validation. -/
theorem splits95_config_invalid : (validateSplitConfiguration splits95).valid = false := by
  have h0 : ¬ (splits95.length = 0) := by decide
  have h10 : ¬ (10 < splits95.length) := by decide
  have habs : 1 / 100 < |totalPercentage splits95 - 100| := by
    rw [totalPercentage_splits95]; norm_num
  simp only [validateSplitConfiguration, if_neg h0, if_neg h10, if_pos habs]

/-- Witness for C6: the 50/45 configuration is rejected and its error
message carries the rendered actual sum, 95. -/
theorem validateSplitConfiguration_spec_witness :
    (validateSplitConfiguration splits95).valid = false ∧
    (validateSplitConfiguration splits95).error =
      some "Split percentages must sum to 100%, got 95%" := by
  have h := (validateSplitConfiguration_spec splits95).2 (by decide) (by decide)
    (by rw [totalPercentage_splits95]; norm_num)
  refine ⟨h.1, ?_⟩
  rw [h.2, totalPercentage_splits95]
  decide

/-- Witness for C1: the scenario-A run satisfies the hypotheses, and its
call list is bounded by the number of parts. -/
theorem referenceChain_spec_witness :
    (validateSplitConfiguration payload3.splits).valid = true ∧
    ((POST env3 payload3 emptyStore).2.2).length ≤ payload3.splits.length :=
  ⟨splits3_config_valid,
    (referenceChain_spec env3 payload3 emptyStore (by decide) (by decide)
      splits3_config_valid).2.1⟩

/-- Witness for C2: the scenario-A run ends in a terminal aggregate status. -/
theorem orchestratorStatus_spec_witness :
    respStatus (POST env3 payload3 emptyStore).1 = some AggStatus.completed ∨
    respStatus (POST env3 payload3 emptyStore).1 = some AggStatus.failed :=
  (orchestratorStatus_spec env3 payload3 emptyStore (by decide) (by decide)
    splits3_config_valid).1

/-- Witness for C8: the 50/45 request is rejected with a validation error
and makes no initiation call. -/
theorem validationAtomicity_witness :
    (∃ c m, (POST env3 payload95 emptyStore).1 = .validationError c m) ∧
    (POST env3 payload95 emptyStore).2.2 = [] := by
  have h := validationAtomicity env3 payload95 emptyStore (Or.inl splits95_config_invalid)
  exact ⟨h.1, h.2.2⟩

/-- Witness for C10: in the run whose first part polls to exhaustion with a
two-attempt budget, part 1 is stored `error` and the aggregate message
carries the attempt count. -/
theorem timeoutCollapse_spec_witness :
    statusAt (POST envTimeout payloadTO emptyStore).1 0 = some PartLifecycle.error ∧
    respMessage (POST envTimeout payloadTO emptyStore).1 =
      some "Part 1 timeout: Transaction status polling timed out after 2 attempts" := by
  have h := timeoutCollapse_spec envTimeout payloadTO emptyStore (by decide) (by decide)
    splits3_config_valid 0 (by decide) (fun j hj => absurd hj (by omega)) (by decide)
    (by decide)
  exact ⟨h.1, h.2.2.1.trans (by decide)⟩

end EvertecSplit
